import Mathlib

/-!
Verification of the LS7366R quadrature-encoder driver
(`firmware/SpiTest/src/LS7366R.hpp` / the accompanying `.cpp`).

Shallow embedding conventions:
* `int32_t` / `int16_t` values are `ℤ`, and every place the C
  arithmetic wraps carries an explicit wrap: the shift-and-add byte
  assembly and the direction-flag negation in `Read16` / `Read32`
  (`wrap16` / `wrap32`, two's complement, so negating the most negative
  value gives it back), and `Format`'s modulus arithmetic, which the C
  performs in unsigned 32 bits (`asUInt32` for the operand conversion)
  before the `uint32_t` result is wrapped back to `int32_t` by the
  return (`wrap32` again).
* `uint32_t range` is `ℕ`; the C test `range <= 0` on an unsigned value
  is the test `range = 0`.
* the `float multiplier` is idealised as `ℚ`; every concrete multiplier
  appearing in the spec (1, 0.5) is exactly representable in `float`,
  and theorems whose truth depends on the exact value of the scaled
  quantity keep their inputs in the band where `float` represents the
  products exactly.
* the Arduino `round` rounds half away from zero (it truncates
  `x + 0.5` for `x >= 0` and `x - 0.5` for `x < 0`); `roundAway` below.
* the SPI bus is modelled two ways: as the list of bus events a method
  emits (for the chip-select discipline), and, for `Read`, as a function
  of the bytes the chip answers on the MISO line.
-/

/-- Counter width selector, `LS7366R::CounterMode` in the header
(`BITS_32 = 0`, `BITS_16 = 2`; the 24- and 8-bit variants are
commented out in the source). -/
inductive CounterMode where
  | BITS_32
  | BITS_16
deriving DecidableEq, Repr

/-- Numeric code of a `CounterMode`, as declared in the enum. -/
def CounterMode.code : CounterMode → ℕ
  | .BITS_32 => 0
  | .BITS_16 => 2

/-- The driver object: the five constructor parameters of `LS7366R`.
`ss` is the chip-select pin, `multiplier` the scale factor, `range`
the wrap range (`uint32_t`), `reverse` the direction-inversion flag. -/
structure LS7366R where
  ss : ℕ
  mode : CounterMode
  multiplier : ℚ
  range : ℕ
  reverse : Bool

/-- Rounding half away from zero: the behaviour of Arduino `round`
on the values this driver feeds it (`(long)(x + 0.5)` for `x >= 0`,
`(long)(x - 0.5)` otherwise; truncation toward zero of `x + 0.5` with
`x >= 0` is the floor, of `x - 0.5` with `x < 0` the ceiling). -/
def roundAway (x : ℚ) : ℤ :=
  if 0 ≤ x then ⌊x + 1 / 2⌋ else ⌈x - 1 / 2⌉

/-- Two's-complement wrap to a signed 16-bit quantity: the conversion
of an arithmetic result into the `int16_t` it is stored in. -/
def wrap16 (n : ℤ) : ℤ := (n + 2 ^ 15) % 2 ^ 16 - 2 ^ 15

/-- Two's-complement wrap to a signed 32-bit quantity: the conversion
of an arithmetic result into the `int32_t` it is stored in or
returned as. -/
def wrap32 (n : ℤ) : ℤ := (n + 2 ^ 31) % 2 ^ 32 - 2 ^ 31

/-- Conversion of a signed value to `uint32_t` (reduction modulo
`2 ^ 32` into `[0, 2 ^ 32)`), as C's usual arithmetic conversions
apply it to the signed operand of a mixed `int32_t` / `uint32_t`
operation. -/
def asUInt32 (n : ℤ) : ℕ := (n % 2 ^ 32).toNat

/-- `LS7366R::Format` (source lines 53-63): scale by `multiplier` and
round, then, when `range` is nonzero, wrap with the sign-corrected
modulus. Because `range` is `uint32_t`, the C expressions
`value % range` and `range - (abs(value) % range)` are computed in
unsigned 32-bit arithmetic (the signed operand is converted first,
`asUInt32` here; the inner subtraction cannot underflow since the
remainder is below `range`), and the `uint32_t` result is converted
back to `int32_t` by the return, which wraps it modulo `2 ^ 32`
(`wrap32` here) whenever it exceeds the `int32_t` maximum. -/
def LS7366R.Format (c : LS7366R) (value : ℤ) : ℤ :=
  let v := roundAway (c.multiplier * value)
  if c.range = 0 then v
  else if 0 ≤ v then wrap32 (asUInt32 v % c.range : ℕ)
  else wrap32 ((c.range - asUInt32 |v| % c.range : ℕ))

/-- Transcription of the spec's own description of `Format`
(section 4.1): scale and round, pass through unchanged when the wrap
range is zero, otherwise take the ordinary remainder of a nonnegative
scaled value and `wrapRange - (abs(scaled) mod wrapRange)` of a
negative one, with absolute value and remainder taken in `ℤ`. Kept as
a separate definition so that it can be compared with the
source-derived `LS7366R.Format`. -/
def Format_spec (m : ℚ) (R : ℕ) (value : ℤ) : ℤ :=
  let scaled := roundAway (m * value)
  if R = 0 then scaled
  else if 0 ≤ scaled then scaled % (R : ℤ)
  else (R : ℤ) - |scaled| % (R : ℤ)

/-- Byte assembly of `LS7366R::Read16` (source lines 66-73), before the
direction inversion: `retval += MSB; retval <<= 8; retval += LSB` on an
`int16_t` accumulator, each step wrapped to the machine width.
`b0` is the first (most significant) byte clocked in after opcode
`0x60`, `b1` the second; `SPI.transfer` returns a `uint8_t`, hence the
`% 256`. -/
def Read16core (b0 b1 : ℕ) : ℤ :=
  let r : ℤ := 0
  let r := wrap16 (r + (b0 % 256 : ℕ))
  let r := wrap16 (r * 256)
  let r := wrap16 (r + (b1 % 256 : ℕ))
  r

/-- Byte assembly of `LS7366R::Read32` (source lines 82-93), before the
direction inversion: four `+=` / `<<= 8` steps on an `int32_t`
accumulator, each step wrapped to the machine width. `b0` is the first
(most significant) byte clocked in after opcode `0x60`. -/
def Read32core (b0 b1 b2 b3 : ℕ) : ℤ :=
  let r : ℤ := 0
  let r := wrap32 (r + (b0 % 256 : ℕ))
  let r := wrap32 (r * 256)
  let r := wrap32 (r + (b1 % 256 : ℕ))
  let r := wrap32 (r * 256)
  let r := wrap32 (r + (b2 % 256 : ℕ))
  let r := wrap32 (r * 256)
  let r := wrap32 (r + (b3 % 256 : ℕ))
  r

/-- `LS7366R::Read16` (source lines 65-79) as a function of the two
reply bytes: assemble, then negate when `reverse` is set. The
negation `-retval` happens on an `int16_t`, so it wraps: negating the
most negative value `-32768` yields `-32768` again (`wrap16`). -/
def LS7366R.Read16 (c : LS7366R) (b0 b1 : ℕ) : ℤ :=
  let retval := Read16core b0 b1
  if c.reverse then wrap16 (-retval) else retval

/-- `LS7366R::Read32` (source lines 81-99) as a function of the four
reply bytes: assemble, then negate when `reverse` is set. The
negation `-retval` happens on an `int32_t`, so it wraps: negating the
most negative value `-2 ^ 31` yields `-2 ^ 31` again (`wrap32`). -/
def LS7366R.Read32 (c : LS7366R) (b0 b1 b2 b3 : ℕ) : ℤ :=
  let retval := Read32core b0 b1 b2 b3
  if c.reverse then wrap32 (-retval) else retval

/-- Modelled from the spec: the register file of the LS7366R chip
itself, which is hardware and not part of the repository. Registers
as named in the spec's opcode table: MDR0 and MDR1 (mode registers),
DTR (data transfer register) and CNTR (the running counter, a value
modulo `2 ^ 32`). -/
structure ChipState where
  mdr0 : ℕ
  mdr1 : ℕ
  dtr : ℕ
  cntr : ℕ

/-- Modelled from the spec: byte `i` (counted from the least
significant end) of the counter value the chip clocks out MSB-first in
reply to opcode `0x60`. -/
def cntrByte (cntr i : ℕ) : ℕ := cntr / 2 ^ (8 * i) % 256

/-- `LS7366R::Initialize` (source lines 15-37) acting on the chip
registers: opcode `0x88` writes `0x01` into MDR0 (quadrature x1,
free-running, index ignored, asynchronous index), opcode `0x90`
writes the counter-width code into MDR1. -/
def LS7366R.Initialize (c : LS7366R) (s : ChipState) : ChipState :=
  ⟨0x01, c.mode.code, s.dtr, s.cntr⟩

/-- `LS7366R::Zero` (source lines 101-121) acting on the chip
registers: opcode `0x98` loads DTR with the four zero bytes that are
clocked out, then opcode `0xE0` transfers DTR into CNTR. The chip
semantics of the two opcodes is modelled from the spec. -/
def LS7366R.Zero (s : ChipState) : ChipState :=
  let s1 : ChipState := ⟨s.mdr0, s.mdr1, 0, s.cntr⟩
  ⟨s1.mdr0, s1.mdr1, s1.dtr, s1.dtr⟩

/-- The raw count assembled by the read path for a given counter
width, when the chip (modelled from the spec) answers opcode `0x60`
with the bytes of `cntr`, most significant first. -/
def rawCount (mode : CounterMode) (cntr : ℕ) : ℤ :=
  match mode with
  | .BITS_32 => Read32core (cntrByte cntr 3) (cntrByte cntr 2) (cntrByte cntr 1) (cntrByte cntr 0)
  | .BITS_16 => Read16core (cntrByte cntr 1) (cntrByte cntr 0)

/-- `LS7366R::Read` (source lines 41-48): dispatch on the counter
mode, read the raw count (with the chip answering the bytes of CNTR
per the spec), and pass it through `Format`. -/
def LS7366R.Read (c : LS7366R) (s : ChipState) : ℤ :=
  match c.mode with
  | .BITS_32 =>
      c.Format (c.Read32 (cntrByte s.cntr 3) (cntrByte s.cntr 2)
        (cntrByte s.cntr 1) (cntrByte s.cntr 0))
  | .BITS_16 =>
      c.Format (c.Read16 (cntrByte s.cntr 1) (cntrByte s.cntr 0))

/-- One observable bus action of a driver method: begin or end an SPI
transaction, drive the chip-select pin low or high, transfer one byte
(the value written on MOSI), or busy-wait a microsecond. -/
inductive SpiEv where
  | beginT
  | endT
  | csLow
  | csHigh
  | xfer (b : ℕ)
  | delayUs
deriving DecidableEq, Repr

/-- The bus actions of `LS7366R::Initialize` (source lines 15-37), in
source order. -/
def initEvents (c : LS7366R) : List SpiEv :=
  [.beginT, .csLow, .xfer 0x88, .xfer 0x01, .csHigh, .delayUs,
   .csLow, .xfer 0x90, .xfer c.mode.code, .csHigh, .delayUs, .endT]

/-- The bus actions of `LS7366R::Read16` (source lines 65-79). -/
def read16Events : List SpiEv :=
  [.beginT, .csLow, .xfer 0x60, .xfer 0x00, .xfer 0x00, .csHigh,
   .endT, .delayUs]

/-- The bus actions of `LS7366R::Read32` (source lines 81-99). -/
def read32Events : List SpiEv :=
  [.beginT, .csLow, .xfer 0x60, .xfer 0x00, .xfer 0x00, .xfer 0x00,
   .xfer 0x00, .csHigh, .endT, .delayUs]

/-- The bus actions of `LS7366R::Read` (source lines 41-48): whatever
the selected width's read helper does. -/
def readEvents (c : LS7366R) : List SpiEv :=
  match c.mode with
  | .BITS_32 => read32Events
  | .BITS_16 => read16Events

/-- The bus actions of `LS7366R::Zero` (source lines 101-121). -/
def zeroEvents : List SpiEv :=
  [.beginT, .csLow, .xfer 0x98, .xfer 0x00, .xfer 0x00, .xfer 0x00,
   .xfer 0x00, .csHigh, .delayUs, .csLow, .xfer 0xE0, .csHigh,
   .endT, .delayUs]

/-- Chip-select and transaction discipline over a list of bus events.
`cs` is true while the chip-select line is asserted (driven low),
`txn` while an SPI transaction is open. The check demands: a
transaction only begins when none is open and chip-select is idle;
it only ends with chip-select deasserted; the line is only asserted
inside an open transaction and only when currently deasserted (and
vice versa); every byte transfer happens inside a transaction with
chip-select asserted; and at the end of the list the line is
deasserted and the transaction closed. -/
def csOk : List SpiEv → Bool → Bool → Bool
  | [], cs, txn => !cs && !txn
  | .beginT :: es, cs, txn => !txn && !cs && csOk es cs true
  | .endT :: es, cs, txn => txn && !cs && csOk es cs false
  | .csLow :: es, cs, txn => txn && !cs && csOk es true txn
  | .csHigh :: es, cs, txn => txn && cs && csOk es false txn
  | .xfer _ :: es, cs, txn => txn && cs && csOk es cs txn
  | .delayUs :: es, cs, txn => csOk es cs txn

/-! ### Helper lemmas -/

/-- Rounding half away from zero is the identity on integers. -/
theorem roundAway_intCast (v : ℤ) : roundAway ((v : ℚ)) = v := by
  unfold roundAway
  split
  · rw [add_comm, Int.floor_add_int]
    norm_num
  · rw [show ((v : ℚ)) - 1 / 2 = -(1 / 2) + (v : ℚ) by ring, Int.ceil_add_int,
      Int.ceil_neg]
    norm_num

/-- With a unit multiplier the scale-and-round step is the identity. -/
theorem roundAway_one_mul (v : ℤ) : roundAway (1 * (v : ℚ)) = v := by
  rw [one_mul, roundAway_intCast]

/-- Unfolding of `Format` on a channel with unit multiplier. -/
theorem Format_one_mul (ss : ℕ) (mode : CounterMode) (rev : Bool)
    (R : ℕ) (v : ℤ) :
    LS7366R.Format ⟨ss, mode, 1, R, rev⟩ v
      = if R = 0 then v else if 0 ≤ v then wrap32 (asUInt32 v % R : ℕ)
        else wrap32 ((R - asUInt32 |v| % R : ℕ)) := by
  simp only [LS7366R.Format, roundAway_one_mul]

/-- Unfolding of `Format_spec` at the unit multiplier. -/
theorem Format_spec_one_mul (R : ℕ) (v : ℤ) :
    Format_spec 1 R v
      = if R = 0 then v else if 0 ≤ v then v % (R : ℤ)
        else (R : ℤ) - |v| % (R : ℤ) := by
  simp only [Format_spec, roundAway_one_mul]

/-- The 16-bit wrap is the identity on values already in the
`int16_t` window. -/
theorem wrap16_of_small (n : ℤ) (h1 : -(2 ^ 15) ≤ n) (h2 : n < 2 ^ 15) :
    wrap16 n = n := by
  unfold wrap16
  omega

/-- The 32-bit wrap is the identity on values already in the
`int32_t` window. -/
theorem wrap32_of_small (n : ℤ) (h1 : -(2 ^ 31) ≤ n) (h2 : n < 2 ^ 31) :
    wrap32 n = n := by
  unfold wrap32
  omega

/-- `wrap16` always lands in the `int16_t` window. -/
theorem wrap16_mem (n : ℤ) : -(2 ^ 15) ≤ wrap16 n ∧ wrap16 n < 2 ^ 15 := by
  unfold wrap16
  omega

/-- `wrap32` always lands in the `int32_t` window. -/
theorem wrap32_mem (n : ℤ) : -(2 ^ 31) ≤ wrap32 n ∧ wrap32 n < 2 ^ 31 := by
  unfold wrap32
  omega

/-- The 16-bit assembly lands in the `int16_t` window. -/
theorem Read16core_mem (b0 b1 : ℕ) :
    -(2 ^ 15) ≤ Read16core b0 b1 ∧ Read16core b0 b1 < 2 ^ 15 := by
  simp only [Read16core]
  exact wrap16_mem _

/-- The 32-bit assembly lands in the `int32_t` window. -/
theorem Read32core_mem (b0 b1 b2 b3 : ℕ) :
    -(2 ^ 31) ≤ Read32core b0 b1 b2 b3 ∧ Read32core b0 b1 b2 b3 < 2 ^ 31 := by
  simp only [Read32core]
  exact wrap32_mem _

/-- The `uint32_t` conversion is transparent on nonnegative `int32_t`
values. -/
theorem asUInt32_of_nonneg (v : ℤ) (h1 : 0 ≤ v) (h2 : v < 2 ^ 32) :
    (asUInt32 v : ℤ) = v := by
  unfold asUInt32
  rw [Int.emod_eq_of_lt h1 h2]
  exact Int.toNat_of_nonneg h1

/-- The `uint32_t` conversion of the absolute value of an `int32_t`
is its natural absolute value (also at `-2 ^ 31`, where the C `abs`
overflows and the two's-complement result converts to `2 ^ 31`). -/
theorem asUInt32_abs (v : ℤ) (h1 : -(2 ^ 31) ≤ v) (h2 : v < 2 ^ 31) :
    asUInt32 |v| = v.natAbs := by
  unfold asUInt32
  rw [Int.abs_eq_natAbs, Int.emod_eq_of_lt (by omega) (by omega)]
  exact Int.toNat_natCast _

/-- Absorbing an inner 32-bit wrap into an addition under an outer
wrap. -/
theorem wrap32_wrap32_add (a b : ℤ) : wrap32 (wrap32 a + b) = wrap32 (a + b) := by
  unfold wrap32
  omega

/-- Absorbing an inner 32-bit wrap into the shift-by-8 under an outer
wrap. -/
theorem wrap32_wrap32_mul256 (a : ℤ) : wrap32 (wrap32 a * 256) = wrap32 (a * 256) := by
  unfold wrap32
  omega

/-- `Format` reads only `multiplier` and `range`, so the direction
flag does not affect it. -/
theorem Format_ignores_reverse (ss : ℕ) (mode : CounterMode) (m : ℚ)
    (R : ℕ) (r1 r2 : Bool) (v : ℤ) :
    LS7366R.Format ⟨ss, mode, m, R, r1⟩ v
      = LS7366R.Format ⟨ss, mode, m, R, r2⟩ v := by
  simp only [LS7366R.Format]

/-- `Read32` on a non-inverted channel returns the plain assembly. -/
theorem Read32_noninverted (ss : ℕ) (mode : CounterMode) (m : ℚ) (R : ℕ)
    (b0 b1 b2 b3 : ℕ) :
    LS7366R.Read32 ⟨ss, mode, m, R, false⟩ b0 b1 b2 b3
      = Read32core b0 b1 b2 b3 := by
  simp [LS7366R.Read32]

/-- `Read32` on an inverted channel negates the assembly, with the
int32 wrap of the negation. -/
theorem Read32_inverted (ss : ℕ) (mode : CounterMode) (m : ℚ) (R : ℕ)
    (b0 b1 b2 b3 : ℕ) :
    LS7366R.Read32 ⟨ss, mode, m, R, true⟩ b0 b1 b2 b3
      = wrap32 (-Read32core b0 b1 b2 b3) := by
  simp [LS7366R.Read32]

/-- `Read16` on a non-inverted channel returns the plain assembly. -/
theorem Read16_noninverted (ss : ℕ) (mode : CounterMode) (m : ℚ) (R : ℕ)
    (b0 b1 : ℕ) :
    LS7366R.Read16 ⟨ss, mode, m, R, false⟩ b0 b1 = Read16core b0 b1 := by
  simp [LS7366R.Read16]

/-- `Read16` on an inverted channel negates the assembly, with the
int16 wrap of the negation. -/
theorem Read16_inverted (ss : ℕ) (mode : CounterMode) (m : ℚ) (R : ℕ)
    (b0 b1 : ℕ) :
    LS7366R.Read16 ⟨ss, mode, m, R, true⟩ b0 b1
      = wrap16 (-Read16core b0 b1) := by
  simp [LS7366R.Read16]

/-! ### The claims -/

/-- C1 fails as stated, at two kinds of inputs: with `wrapRange = 200`
and `scaleFactor = 1`, `Format (-200)` evaluates to `200`, which is
not below the wrap range; and with `wrapRange = 3000000000` (above
`2 ^ 31`), `Format (-100)` wraps on the `int32_t` return and comes out
negative (`-1294967396`), violating the lower bound too. -/
theorem c1_wrap_below_range_counterexample :
    ¬ LS7366R.Format ⟨53, .BITS_32, 1, 200, false⟩ (-200) < 200
    ∧ LS7366R.Format ⟨53, .BITS_32, 1, 3000000000, false⟩ (-100)
        = -1294967396 := by
  rw [Format_one_mul, Format_one_mul]
  exact ⟨by decide, by decide⟩

/-- C1 amended: with `scaleFactor = 1`, an input representable in
`int32_t` and a positive `wrapRange = R` below `2 ^ 31`, `Format`
lands in the closed interval `[0, R]`. Both weakenings are forced:
the upper end `R` itself is attained (the counterexample's first
input, `Format (-200) = 200` at `R = 200`), so `[0, R)` widens to
`[0, R]`; and for `R ≥ 2 ^ 31` the `uint32_t` result of the modulus
can exceed the `int32_t` maximum, so the returned value wraps negative
(the counterexample's second input), hence the bound on `R`. -/
theorem c1_wrap_bounded (ss : ℕ) (mode : CounterMode) (rev : Bool)
    (v : ℤ) (R : ℕ) (_hv1 : -(2 ^ 31) ≤ v) (_hv2 : v < 2 ^ 31)
    (hR : 0 < R) (hR2 : R < 2 ^ 31) :
    0 ≤ LS7366R.Format ⟨ss, mode, 1, R, rev⟩ v ∧
      LS7366R.Format ⟨ss, mode, 1, R, rev⟩ v ≤ R := by
  rw [Format_one_mul, if_neg hR.ne']
  rcases le_or_lt 0 v with hv | hv
  · rw [if_pos hv]
    have hm : asUInt32 v % R < R := Nat.mod_lt _ hR
    rw [wrap32_of_small _ (by omega) (by omega)]
    omega
  · rw [if_neg (not_le.mpr hv)]
    have hm : asUInt32 |v| % R < R := Nat.mod_lt _ hR
    rw [wrap32_of_small _ (by omega) (by omega)]
    omega

/-- Witness for the amended C1 at `v = 300`, `R = 200`. -/
theorem c1_wrap_bounded_witness :
    0 ≤ LS7366R.Format ⟨53, .BITS_32, 1, 200, false⟩ 300 ∧
      LS7366R.Format ⟨53, .BITS_32, 1, 200, false⟩ 300 ≤ 200 :=
  c1_wrap_bounded 53 .BITS_32 false 300 200 (by decide) (by decide)
    (by decide) (by decide)

/-- C2 fails as stated for every positive wrapRange: at
`wrapRange = 2 ^ 31` the scaled value `-2 ^ 31` is a negative exact
multiple of the range, yet the `uint32_t` result `2 ^ 31` wraps to
`-2 ^ 31` on the `int32_t` return, so `Format` does not return the
wrap range there. -/
theorem c2_negative_multiple_counterexample :
    (-(2 ^ 31) : ℤ) < 0
    ∧ ((-(2 ^ 31) : ℤ)).natAbs % 2 ^ 31 = 0
    ∧ LS7366R.Format ⟨53, .BITS_32, 1, 2 ^ 31, false⟩ (-(2 ^ 31))
        = -(2 ^ 31)
    ∧ ¬ LS7366R.Format ⟨53, .BITS_32, 1, 2 ^ 31, false⟩ (-(2 ^ 31))
        = ((2 ^ 31 : ℕ) : ℤ) := by
  rw [Format_one_mul]
  exact ⟨by decide, by decide, by decide, by decide⟩

/-- C2 amended: with a positive wrap range below `2 ^ 31`, a scaled
value that is a negative exact multiple of the range is formatted to
the wrap range itself, not to `0` (stated with `scaleFactor = 1` and
the input kept in the band `|v| ≤ 2 ^ 24` where `float` scaling by 1
is exact, so the scaled value is the argument itself). At
`wrapRange = 2 ^ 31` and scaled value `-2 ^ 31` the `int32_t` return
conversion makes `Format` return `-2 ^ 31` instead, so the range
bound cannot be dropped. -/
theorem c2_negative_multiple_yields_range (ss : ℕ) (mode : CounterMode)
    (rev : Bool) (v : ℤ) (R : ℕ) (hR : 0 < R) (hR2 : R < 2 ^ 31)
    (hv : v < 0) (hv2 : -(2 ^ 24) ≤ v) (hm : v.natAbs % R = 0) :
    LS7366R.Format ⟨ss, mode, 1, R, rev⟩ v = R := by
  rw [Format_one_mul, if_neg hR.ne', if_neg (not_le.mpr hv),
    asUInt32_abs v (by omega) (by omega), hm, Nat.sub_zero,
    wrap32_of_small _ (by omega) (by omega)]

/-- Witness for the amended C2: the spec's own boundary instance
`Format (-200) = 200` at `wrapRange = 200`, `scaleFactor = 1`. -/
theorem c2_negative_multiple_witness :
    LS7366R.Format ⟨53, .BITS_32, 1, 200, false⟩ (-200) = 200 :=
  c2_negative_multiple_yields_range 53 .BITS_32 false (-200) 200
    (by decide) (by decide) (by decide) (by decide) (by decide)

/-- C3 fails as stated for every positive wrapRange: with
`wrapRange = 3000000000` and `scaleFactor = 1`, the spec's formula
`wrapRange - (abs(scaled) mod wrapRange)` gives `2999999900` at
scaled value `-100`, but the program's `int32_t` return wraps that to
`-1294967396`. -/
theorem c3_sign_correct_modulus_counterexample :
    LS7366R.Format ⟨53, .BITS_32, 1, 3000000000, false⟩ (-100)
        = -1294967396
    ∧ Format_spec 1 3000000000 (-100) = 2999999900
    ∧ ¬ LS7366R.Format ⟨53, .BITS_32, 1, 3000000000, false⟩ (-100)
        = Format_spec 1 3000000000 (-100) := by
  have hf : LS7366R.Format ⟨53, .BITS_32, 1, 3000000000, false⟩ (-100)
      = -1294967396 := by
    rw [Format_one_mul]
    decide
  have hs : Format_spec 1 3000000000 (-100) = 2999999900 := by
    rw [Format_spec_one_mul]
    norm_num
  refine ⟨hf, hs, ?_⟩
  rw [hf, hs]
  decide

/-- C3 amended: the source `Format` coincides with the spec's
sign-correct modulus description (`Format_spec`) whenever the wrap
range is below `2 ^ 31` and the scaled value is representable in
`int32_t` (outside that window the unsigned arithmetic and `int32_t`
return conversion make the source differ), and on the spec's concrete
anchors with `wrapRange = 200` and `scaleFactor = 1` it sends `-125`
to `75` and `125` to `125`. -/
theorem c3_sign_correct_modulus :
    (∀ (c : LS7366R) (v : ℤ),
      -(2 ^ 31) ≤ roundAway (c.multiplier * v) →
      roundAway (c.multiplier * v) < 2 ^ 31 →
      c.range < 2 ^ 31 →
      c.Format v = Format_spec c.multiplier c.range v)
    ∧ LS7366R.Format ⟨53, .BITS_32, 1, 200, false⟩ (-125) = 75
    ∧ LS7366R.Format ⟨53, .BITS_32, 1, 200, false⟩ 125 = 125 := by
  refine ⟨fun c v h1 h2 hR2 => ?_, ?_, ?_⟩
  · simp only [LS7366R.Format, Format_spec]
    rcases Nat.eq_zero_or_pos c.range with hR | hR
    · rw [hR]
      norm_num
    · rw [if_neg hR.ne', if_neg hR.ne']
      rcases le_or_lt 0 (roundAway (c.multiplier * v)) with hs | hs
      · rw [if_pos hs, if_pos hs]
        have hm : asUInt32 (roundAway (c.multiplier * v)) % c.range
            < c.range := Nat.mod_lt _ hR
        rw [wrap32_of_small _ (by omega) (by omega)]
        have ha : (asUInt32 (roundAway (c.multiplier * v)) : ℤ)
            = roundAway (c.multiplier * v) :=
          asUInt32_of_nonneg _ hs (by omega)
        have hcast : ((asUInt32 (roundAway (c.multiplier * v)) % c.range : ℕ) : ℤ)
            = (asUInt32 (roundAway (c.multiplier * v)) : ℤ) % (c.range : ℤ) := by
          push_cast
          rfl
        rw [hcast, ha]
      · rw [if_neg (not_le.mpr hs), if_neg (not_le.mpr hs),
          asUInt32_abs _ h1 h2]
        have hm : (roundAway (c.multiplier * v)).natAbs % c.range
            < c.range := Nat.mod_lt _ hR
        rw [wrap32_of_small _ (by omega) (by omega), Int.abs_eq_natAbs]
        have hcast : (((roundAway (c.multiplier * v)).natAbs % c.range : ℕ) : ℤ)
            = ((roundAway (c.multiplier * v)).natAbs : ℤ) % (c.range : ℤ) := by
          push_cast
          rfl
        rw [← hcast]
        omega
  · rw [Format_one_mul]
    decide
  · rw [Format_one_mul]
    decide

/-- Witness for the amended C3 at the channel with `wrapRange = 200`,
`scaleFactor = 1` and input `300`. -/
theorem c3_sign_correct_modulus_witness :
    LS7366R.Format ⟨53, .BITS_32, 1, 200, false⟩ 300
      = Format_spec 1 200 300 :=
  c3_sign_correct_modulus.1 ⟨53, .BITS_32, 1, 200, false⟩ 300
    (by
      show -(2 ^ 31) ≤ roundAway (1 * ((300 : ℤ) : ℚ))
      rw [roundAway_one_mul]
      decide)
    (by
      show roundAway (1 * ((300 : ℤ) : ℚ)) < 2 ^ 31
      rw [roundAway_one_mul]
      decide)
    (by decide)

/-- C4: with `wrapRange = 0` the formatter is the pure scale-and-round
passthrough for every multiplier and every input, negative results
included; the modulus branch is not taken, so the wrap range is never
divided by. -/
theorem c4_unbounded_passthrough (ss : ℕ) (mode : CounterMode) (rev : Bool)
    (m : ℚ) (v : ℤ) :
    LS7366R.Format ⟨ss, mode, m, 0, rev⟩ v = roundAway (m * v) := by
  simp [LS7366R.Format]

/-- C5: the 32-bit read assembles its four reply bytes MSB-first by
repeated shift-left-8-and-add into the two's-complement 32-bit value
of their big-endian weighted sum; in particular the bytes
`0x00 0x00 0x01 0x2C` assemble to `300`. -/
theorem c5_read32_assembly :
    (∀ b0 b1 b2 b3 : ℕ, b0 < 256 → b1 < 256 → b2 < 256 → b3 < 256 →
      Read32core b0 b1 b2 b3
        = wrap32 (b0 * 2 ^ 24 + b1 * 2 ^ 16 + b2 * 2 ^ 8 + b3))
    ∧ Read32core 0x00 0x00 0x01 0x2C = 300 := by
  constructor
  · intro b0 b1 b2 b3 h0 h1 h2 h3
    simp only [Read32core]
    rw [Nat.mod_eq_of_lt h0, Nat.mod_eq_of_lt h1, Nat.mod_eq_of_lt h2,
      Nat.mod_eq_of_lt h3]
    simp only [wrap32_wrap32_add, wrap32_wrap32_mul256]
    exact congrArg wrap32 (by ring)
  · decide

/-- Witness for C5 at the bytes `0xAB 0xCD 0xEF 0x01`. -/
theorem c5_read32_assembly_witness :
    Read32core 171 205 239 1
      = wrap32 (171 * 2 ^ 24 + 205 * 2 ^ 16 + 239 * 2 ^ 8 + 1) :=
  c5_read32_assembly.1 171 205 239 1 (by decide) (by decide) (by decide)
    (by decide)

/-- C6 fails as stated at the most negative raw count: on a 16-bit
inverted channel reading raw count `N = -32768` (counter bytes
`0x80 0x00`), the `int16_t` negation wraps back to `-32768`, so the
channel returns `Format N` and not the claimed `Format (-N)`. -/
theorem c6_direction_inversion_counterexample :
    ¬ LS7366R.Read ⟨53, .BITS_16, 1, 0, true⟩ ⟨0, 2, 0, 32768⟩
        = LS7366R.Format ⟨53, .BITS_16, 1, 0, false⟩
            (-(rawCount .BITS_16 32768))
    ∧ LS7366R.Read ⟨53, .BITS_16, 1, 0, true⟩ ⟨0, 2, 0, 32768⟩
        = LS7366R.Format ⟨53, .BITS_16, 1, 0, true⟩
            (rawCount .BITS_16 32768) := by
  constructor <;>
    simp only [LS7366R.Read, Read16_inverted, rawCount, Format_one_mul] <;>
    decide

/-- C6 amended: two channels that differ only in the direction flag
format the same raw assembled count `N` to `Format N` and
`Format (-N)` respectively, the negation happening after byte
assembly and before scaling and wrapping, except at the most negative
count of the selected width (`N = -2 ^ 31` for 32-bit, `N = -2 ^ 15`
for 16-bit), where the machine negation wraps back to `N` and the
inverted channel returns `Format N` instead. -/
theorem c6_direction_inversion :
    (∀ (ss : ℕ) (m : ℚ) (R : ℕ) (s : ChipState),
      LS7366R.Read ⟨ss, .BITS_32, m, R, false⟩ s
          = LS7366R.Format ⟨ss, .BITS_32, m, R, false⟩
              (rawCount .BITS_32 s.cntr)
      ∧ (rawCount .BITS_32 s.cntr ≠ -(2 ^ 31) →
          LS7366R.Read ⟨ss, .BITS_32, m, R, true⟩ s
            = LS7366R.Format ⟨ss, .BITS_32, m, R, false⟩
                (-(rawCount .BITS_32 s.cntr))))
    ∧ (∀ (ss : ℕ) (m : ℚ) (R : ℕ) (s : ChipState),
      LS7366R.Read ⟨ss, .BITS_16, m, R, false⟩ s
          = LS7366R.Format ⟨ss, .BITS_16, m, R, false⟩
              (rawCount .BITS_16 s.cntr)
      ∧ (rawCount .BITS_16 s.cntr ≠ -(2 ^ 15) →
          LS7366R.Read ⟨ss, .BITS_16, m, R, true⟩ s
            = LS7366R.Format ⟨ss, .BITS_16, m, R, false⟩
                (-(rawCount .BITS_16 s.cntr)))) := by
  constructor <;> intro ss m R s <;> constructor
  · simp only [LS7366R.Read, Read32_noninverted, rawCount]
  · intro hN
    simp only [rawCount] at hN
    simp only [LS7366R.Read, Read32_inverted, rawCount]
    have hb := Read32core_mem (cntrByte s.cntr 3) (cntrByte s.cntr 2)
      (cntrByte s.cntr 1) (cntrByte s.cntr 0)
    rw [wrap32_of_small _ (by omega) (by omega)]
    exact Format_ignores_reverse ss .BITS_32 m R true false _
  · simp only [LS7366R.Read, Read16_noninverted, rawCount]
  · intro hN
    simp only [rawCount] at hN
    simp only [LS7366R.Read, Read16_inverted, rawCount]
    have hb := Read16core_mem (cntrByte s.cntr 1) (cntrByte s.cntr 0)
    rw [wrap16_of_small _ (by omega) (by omega)]
    exact Format_ignores_reverse ss .BITS_16 m R true false _

/-- Witness for the amended C6 on both widths at counter value `300`,
where the raw count is not the most negative one. -/
theorem c6_direction_inversion_witness :
    LS7366R.Read ⟨53, .BITS_32, 1, 0, true⟩ ⟨0, 0, 0, 300⟩
        = LS7366R.Format ⟨53, .BITS_32, 1, 0, false⟩
            (-(rawCount .BITS_32 300))
    ∧ LS7366R.Read ⟨53, .BITS_16, 1, 0, true⟩ ⟨0, 2, 0, 300⟩
        = LS7366R.Format ⟨53, .BITS_16, 1, 0, false⟩
            (-(rawCount .BITS_16 300)) :=
  ⟨(c6_direction_inversion.1 53 1 0 ⟨0, 0, 0, 300⟩).2 (by decide),
   (c6_direction_inversion.2 53 1 0 ⟨0, 2, 0, 300⟩).2 (by decide)⟩

/-- C7: on a 32-bit channel with unit scale, no wrapping and no
inversion, a read immediately following `Initialize` and `Zero`, with
no count drift in between, returns `0`. -/
theorem c7_read_after_zero (s : ChipState) :
    LS7366R.Read ⟨53, .BITS_32, 1, 0, false⟩
      (LS7366R.Zero (LS7366R.Initialize ⟨53, .BITS_32, 1, 0, false⟩ s)) = 0 := by
  norm_num [LS7366R.Read, LS7366R.Zero, LS7366R.Initialize, LS7366R.Read32,
    Read32core, cntrByte, wrap32, LS7366R.Format, roundAway]

/-- C8: with `scaleFactor = 1/2` and no wrapping, `Format 7` is
`round 3.5 = 4`; the companion instances `Format 5 = 3` and
`Format (-5) = -3` pin the rounding rule to half away from zero on
this code path (half to even would give `2` and `-2`). -/
theorem c8_round_half_away :
    LS7366R.Format ⟨53, .BITS_32, 1 / 2, 0, false⟩ 7 = 4
    ∧ LS7366R.Format ⟨53, .BITS_32, 1 / 2, 0, false⟩ 5 = 3
    ∧ LS7366R.Format ⟨53, .BITS_32, 1 / 2, 0, false⟩ (-5) = -3 := by
  refine ⟨?_, ?_, ?_⟩ <;>
    norm_num [LS7366R.Format, roundAway, Int.ceil_neg]

/-- C9: every public operation keeps the chip-select discipline: the
line is asserted only inside the operation's own transactions, every
byte moves with the line asserted, assert and deassert alternate in
matched pairs, and each method returns with the line deasserted and
its transaction closed. -/
theorem c9_chip_select_discipline (c : LS7366R) :
    csOk (initEvents c) false false = true
    ∧ csOk (readEvents c) false false = true
    ∧ csOk zeroEvents false false = true := by
  obtain ⟨ss, mode, m, R, rev⟩ := c
  cases mode <;> exact ⟨rfl, rfl, rfl⟩

/-- C10: the 16-bit read assembles any two reply bytes into the
two's-complement signed 16-bit interpretation of `MSB * 256 + LSB`:
the assembled value is that sum wrapped into `[-32768, 32767]`, and a
most significant byte with its high bit set yields a negative
count. -/
theorem c10_read16_twos_complement (b0 b1 : ℕ) (h0 : b0 < 256)
    (h1 : b1 < 256) :
    Read16core b0 b1 = wrap16 (b0 * 256 + b1)
    ∧ (-32768 ≤ Read16core b0 b1 ∧ Read16core b0 b1 ≤ 32767)
    ∧ (128 ≤ b0 → Read16core b0 b1 < 0) := by
  simp only [Read16core, wrap16]
  rw [Nat.mod_eq_of_lt h0, Nat.mod_eq_of_lt h1]
  norm_num
  omega

/-- Witness for C10 at the bytes `0x80 0x00`, the most negative
count. -/
theorem c10_read16_witness :
    Read16core 128 0 = wrap16 (128 * 256 + 0) ∧ Read16core 128 0 < 0 :=
  ⟨(c10_read16_twos_complement 128 0 (by decide) (by decide)).1,
   (c10_read16_twos_complement 128 0 (by decide) (by decide)).2.2 (by decide)⟩
